import Mathlib

/-!
Verification of the error-learning and repair-loop core of the matlab-ai-agent
repository.  Text is modelled as `List Char`; every Python function that the
claims touch is translated into an executable Lean definition, and file-system
effects are made explicit by passing a state record.
-/

set_option maxRecDepth 4000

/-- Text is modelled as a list of characters. -/
abbrev Str : Type := List Char

/-- Coerce a Lean string literal into the `List Char` text model. -/
def str (s : String) : Str := s.data

/-- Characters removed by the default Python `str.strip()` (ASCII whitespace). -/
def isPySpace (c : Char) : Bool :=
  c = ' ' || c = '\t' || c = '\n' || c = '\r' || c = '\x0b' || c = '\x0c'

/-- Model of Python `str.lower()` on the ASCII letters (all classifier
keywords are ASCII). -/
def pyLower (s : Str) : Str := s.map Char.toLower

/-- Model of the Python substring test `pat in s`: does `pat` occur as a
contiguous substring of `s`? -/
def occursB (pat : Str) : Str → Bool
  | [] => pat.isEmpty
  | c :: rest => pat.isPrefixOf (c :: rest) || occursB pat rest

/-- `ErrorLearner._classify_error` (src/src/utils/error_learner.py lines
122-137): lowercase the message, then test keyword groups in a fixed order;
the result is the category name exactly as the Python code returns it. -/
def classify_error (error_message : Str) : Str :=
  let m := pyLower error_message
  if occursB (str "index") m && (occursB (str "exceeds") m || occursB (str "bounds") m) then
    str "array_bounds"
  else if occursB (str "dimension") m || occursB (str "size") m then
    str "dimension_mismatch"
  else if occursB (str "type") m || occursB (str "class") m then
    str "type_error"
  else if occursB (str "undefined") m || occursB (str "not found") m then
    str "undefined_variable"
  else if occursB (str "syntax") m then
    str "syntax_error"
  else
    str "other"

/-- `ErrorLearner._generate_prevention_rule` (error_learner.py lines 139-158).
The Python function receives the `error_info` dict; only its `error_type` and
`error_message` fields are read, so the model takes those two fields. -/
def generate_prevention_rule (error_type error_message : Str) : Option Str :=
  if error_type = str "array_bounds" then
    some (str "Always validate array indices against array dimensions using size() or length() before indexing operations to prevent 'Index exceeds array bounds' errors.")
  else if error_type = str "dimension_mismatch" then
    some (str "Verify matrix dimensions match before operations using size() and assert() to prevent dimension mismatch errors.")
  else if error_type = str "type_error" then
    some (str "Validate variable types using isa() or class() before operations to ensure type compatibility.")
  else if error_type = str "undefined_variable" then
    some (str "Check for variable existence using exist() before using variables to prevent 'Undefined variable' errors.")
  else if error_type = str "syntax_error" then
    some (str "Validate MATLAB syntax using mlint() before execution to catch syntax errors early.")
  else if occursB (str "assert") error_message then
    some (str "Add appropriate assert() statements to validate conditions that caused: " ++ error_message)
  else
    none

/-- The literal section header used by both regexes in error_learner.py. -/
def marker : Str := str "8. ERROR PREVENTION:"

/-- A blank line: the boundary `(?=\n\n|\Z)` of both section regexes. -/
def blank : Str := str "\n\n"

/-- Model of Python `str.strip()`: drop ASCII whitespace from both ends. -/
def stripChars (s : Str) : Str :=
  ((s.dropWhile isPySpace).reverse.dropWhile isPySpace).reverse

/-- One left-to-right pass implementing
`re.sub(r"8\. ERROR PREVENTION:.*?(?=\n\n|\Z)", "", prompt, flags=re.DOTALL)`
(error_learner.py lines 57-59).  In mode `false` the scanner copies characters
until the literal header is the prefix of the remaining input; a match then
extends (non-greedily, `.` matching newlines) up to the first blank line or the
end of the input, so mode `true` discards characters until `"\n\n"` starts at
the current position, which is kept, exactly as the lookahead keeps it.
Because the header contains no newline, starting the blank-line search just
after the first header character is equivalent to starting it after the whole
header, and `re.sub` resumes scanning at the kept boundary. -/
def reSubGo : Bool → Str → Str
  | _, [] => []
  | true, c :: rest =>
    if blank.isPrefixOf (c :: rest) then c :: reSubGo false rest
    else reSubGo true rest
  | false, c :: rest =>
    if marker.isPrefixOf (c :: rest) then reSubGo true rest
    else c :: reSubGo false rest

/-- Removal of every ERROR PREVENTION section, i.e. the `re.sub` call of
`ErrorLearner._update_error_prevention_section`. -/
def remove_prevention_sections (prompt : Str) : Str := reSubGo false prompt

/-- The capture group `(.*?)(?=\n\n|\Z)` of the extraction regex: the
characters following the header up to (excluding) the first blank line or the
end of input. -/
def takeMatch : Str → Str
  | [] => []
  | c :: rest => if blank.isPrefixOf (c :: rest) then [] else c :: takeMatch rest

/-- `ErrorLearner._extract_error_prevention_section` (error_learner.py lines
46-52): `re.search` for the first header occurrence; on a match return the
stripped capture group, otherwise the empty string. -/
def extract_error_prevention_section : Str → Str
  | [] => []
  | c :: rest =>
    if marker.isPrefixOf (c :: rest) then
      stripChars (takeMatch ((c :: rest).drop marker.length))
    else
      extract_error_prevention_section rest

/-- The separator `"\n    "` on which `learn_from_error` splits the extracted
section into individual rules. -/
def indentSep : Str := str "\n    "

/-- Left-to-right scanner implementing Python `s.split("\n    ")`: `skip > 0`
means that many separator characters remain to be discarded. -/
def splitIndentGo : Nat → Str → List Str
  | _, [] => [[]]
  | Nat.succ n, _ :: rest => splitIndentGo n rest
  | 0, c :: rest =>
    if indentSep.isPrefixOf (c :: rest) then
      [] :: splitIndentGo (indentSep.length - 1) rest
    else
      match splitIndentGo 0 rest with
      | [] => [[c]]
      | p :: ps => (c :: p) :: ps

/-- Python `s.split("\n    ")`. -/
def split_indent (s : Str) : List Str := splitIndentGo 0 s

/-- The rule list `learn_from_error` reads from a prompt document
(error_learner.py lines 101-103): extract the section, split it on the
indented-line separator, strip each piece and keep the non-empty ones. -/
def current_rules_of (prompt : Str) : List Str :=
  ((split_indent (extract_error_prevention_section prompt)).map stripChars).filter
    (fun r => !r.isEmpty)

/-- `ErrorLearner._update_error_prevention_section` (error_learner.py lines
54-62): delete every existing section, strip the remainder, then append a
freshly formatted section followed by a final newline. -/
def update_error_prevention_section (prompt : Str) (new_rules : List Str) : Str :=
  stripChars (remove_prevention_sections prompt)
    ++ str "\n\n" ++ marker ++ str "\n    "
    ++ indentSep.intercalate new_rules ++ ['\n']

/-- The rule-merging step of `learn_from_error` (error_learner.py lines
105-107): append the new rule only when it is not already present. -/
def merge_rule (current_rules : List Str) (new_rule : Str) : List Str :=
  if new_rule ∈ current_rules then current_rules else current_rules ++ [new_rule]

/-- The `error_info` dict built by `learn_from_error` (error_learner.py lines
77-84). -/
structure ErrorInfo where
  timestamp : Str
  error_message : Str
  error_type : Str
  original_code : Str
  fixed_code : Str
deriving DecidableEq

/-- The error-history document: a list of records plus a last-update stamp. -/
structure ErrorHistory where
  errors : List ErrorInfo
  last_update : Option Str
deriving DecidableEq

/-- Explicit state threaded through `learn_from_error`: the prompt file
(`none` when the file is missing, so `_load_prompt` raises), the persisted
`error_history.json` document, and the in-memory `self.error_history`. -/
structure LearnerState where
  promptFile : Option Str
  historyFile : ErrorHistory
  memory : ErrorHistory
deriving DecidableEq

/-- `ErrorLearner.learn_from_error` (error_learner.py lines 64-120).  The
record is appended to the in-memory history unconditionally; the prompt and
the persisted history are written only when a rule was synthesized, the prompt
file exists, and the rule is not already present.  A missing prompt file makes
`_load_prompt` raise, which the `except` clause turns into `False`. -/
def learn_from_error (st : LearnerState) (now error_message fixed_code original_code : Str) :
    Bool × LearnerState :=
  let info : ErrorInfo :=
    { timestamp := now, error_message := error_message,
      error_type := classify_error error_message,
      original_code := original_code, fixed_code := fixed_code }
  let mem : ErrorHistory := { errors := st.memory.errors ++ [info], last_update := some now }
  let st1 : LearnerState := { st with memory := mem }
  match generate_prevention_rule (classify_error error_message) error_message with
  | none => (false, st1)
  | some new_rule =>
    match st.promptFile with
    | none => (false, st1)
    | some current_prompt =>
      let current_rules := current_rules_of current_prompt
      if new_rule ∈ current_rules then (false, st1)
      else
        (true,
          { st1 with
            promptFile :=
              some (update_error_prevention_section current_prompt
                (current_rules ++ [new_rule])),
            historyFile := mem })

/-- `LLMInterface._clean_code` (src/src/llm.py lines 230-249): strip a leading
markdown fence (dropping ten characters after a `matlab` fence, three
otherwise), a trailing fence, then whitespace. -/
def clean_code (code : Str) : Str :=
  let code1 :=
    if (str "```matlab").isPrefixOf code then code.drop 10
    else if (str "```").isPrefixOf code then code.drop 3
    else code
  let code2 :=
    if (str "```").isSuffixOf code1 then code1.take (code1.length - 3) else code1
  stripChars code2

/-- The outcome of one call to the OpenAI chat API: either a reply text or a
raised exception carrying a message. -/
abbrev ApiOutcome : Type := Except Str Str

/-- `LLMInterface.generate_code` (llm.py lines 73-142), with the API call
abstracted as `outcome`: on success the stripped, fence-cleaned reply; on an
exception the caught error converted into a comment string. -/
def llm_generate_code (outcome : ApiOutcome) : Str :=
  match outcome with
  | Except.ok response => clean_code (stripChars response)
  | Except.error e => str "% Error generating code: " ++ e

/-- `LLMInterface.fix_code` (llm.py lines 144-228): on success the cleaned
reply; on an exception the original code is returned unchanged. -/
def llm_fix_code (code : Str) (outcome : ApiOutcome) : Str :=
  match outcome with
  | Except.ok response => clean_code (stripChars response)
  | Except.error _ => code

/-- The `MatlabAIAgent` session state used by the claims: the current
CodeArtifact and the last validation results (src/src/agent.py lines 33-35). -/
structure AgentState where
  matlab_code : Str
  mlint_results : List Str
deriving DecidableEq

/-- `MatlabAIAgent.generate_matlab_code` (agent.py lines 82-112): the LLM
result is stored into `self.matlab_code` and returned. -/
def generate_matlab_code (st : AgentState) (outcome : ApiOutcome) : Str × AgentState :=
  let code := llm_generate_code outcome
  (code, { st with matlab_code := code })

/-- `MatlabAIAgent.fix_code_with_llm` (agent.py lines 169-213).  The returned
`Bool` records whether the generation collaborator was invoked.  Python
`if not error_messages` is the emptiness test on the list. -/
def fix_code_with_llm (st : AgentState) (error_messages : List Str) (outcome : ApiOutcome) :
    Str × AgentState × Bool :=
  if error_messages.isEmpty then
    (st.matlab_code, st, false)
  else
    let code := llm_fix_code st.matlab_code outcome
    (code, { st with matlab_code := code }, true)

/-- `MatlabAIAgent.validate_with_mlint` (agent.py lines 114-139): stores the
collaborator result and returns it; the success branch of its log message
treats an empty list and the one-element sentinel list identically. -/
def validate_with_mlint (st : AgentState) (validation : List Str) : List Str × AgentState :=
  (validation, { st with mlint_results := validation })

/-- The condition of the clean-validation branch in
`MatlabAIAgent.validate_with_mlint` (agent.py lines 128-132). -/
def agent_validation_clean (results : List Str) : Bool :=
  results.isEmpty || results = [str "No issues found."]

/-- The condition under which `cli.interactive` (src/src/cli.py line 163)
enters the issues branch that offers the automatic repair: Python truthiness
of the returned list. -/
def cli_enters_issues_branch (results : List Str) : Bool :=
  !results.isEmpty

/-- NFKD decomposition of a single character, modelling
`unicodedata.normalize("NFKD", text)` character-wise on a small table of the
decomposable characters used in this development; every other character is its
own normal form. -/
def nfkdChar (c : Char) : Str :=
  if c = Char.ofNat 233 then [Char.ofNat 101, Char.ofNat 769]
  else if c = Char.ofNat 224 then [Char.ofNat 97, Char.ofNat 768]
  else if c = Char.ofNat 178 then [Char.ofNat 50]
  else [c]

/-- `MatlabEngine._clean_ascii` (src/src/engine.py lines 294-306): NFKD
normalization followed by `encode("ascii", "ignore")`, which silently drops
every code point above 127. -/
def clean_ascii (text : Str) : Str :=
  (text.flatMap nfkdChar).filter (fun c => c.toNat < 128)

/-- The script text that `MatlabEngine.execute_code` (engine.py lines 131-191)
writes to the temporary `.m` file and runs: `none` when the engine is
unavailable or the code is empty (both early-return paths), otherwise the
ASCII-cleaned code.  No diagnostic about the cleaning is produced on any
path. -/
def execute_code_script (is_available : Bool) (code : Str) : Option Str :=
  if !is_available then none
  else if code.isEmpty then none
  else some (clean_ascii code)

/-- The section header split into head and tail, for prefix reasoning. -/
def markerTail : Str := str ". ERROR PREVENTION:"

/-- The text following the header in a freshly formatted section: the indented
rule block of `_update_error_prevention_section`, final newline included. -/
def section_tail (rules : List Str) : Str :=
  str "\n    " ++ indentSep.intercalate rules ++ ['\n']

/-- Witness state for the learning theorems: a present prompt document with
one existing rule and an empty history. -/
def wState : LearnerState :=
  ⟨some (str "intro\n\n8. ERROR PREVENTION:\n    existing rule"), ⟨[], none⟩, ⟨[], none⟩⟩

theorem marker_ne_nil : marker ≠ [] := by decide

theorem nl_not_mem_marker : '\n' ∉ marker := by decide

theorem marker_cons : marker = '8' :: markerTail := rfl

theorem blank_cons : blank = '\n' :: ['\n'] := rfl

theorem dropWhile_all {p : Char → Bool} (w : Str) (h : ∀ c ∈ w, p c = true) :
    w.dropWhile p = [] := by
  induction w with
  | nil => rfl
  | cons a w1 ih =>
    have ha := h a (List.mem_cons_self a w1)
    simp only [List.dropWhile_cons, ha, if_true]
    exact ih fun c hc => h c (List.mem_cons_of_mem a hc)

theorem dropWhile_append_nil {p : Char → Bool} (l w : Str) (h : l.dropWhile p = []) :
    (l ++ w).dropWhile p = w.dropWhile p := by
  induction l with
  | nil => rfl
  | cons a l1 ih =>
    by_cases hp : p a = true
    · simp only [List.cons_append, List.dropWhile_cons, hp, if_true]
      apply ih
      simpa only [List.dropWhile_cons, hp, if_true] using h
    · rw [List.dropWhile_cons] at h
      simp only [hp] at h
      exact absurd h (by simp)

theorem dropWhile_append_of_ne {p : Char → Bool} (l w : Str) (h : l.dropWhile p ≠ []) :
    (l ++ w).dropWhile p = l.dropWhile p ++ w := by
  induction l with
  | nil => exact absurd rfl h
  | cons a l1 ih =>
    by_cases hp : p a = true
    · have h1 : l1.dropWhile p ≠ [] := by
        simpa only [List.dropWhile_cons, hp, if_true] using h
      simp only [List.cons_append, List.dropWhile_cons, hp, if_true, ih h1]
    · simp only [List.cons_append, List.dropWhile_cons, hp]
      simp [hp]

theorem dropWhile_head_false {p : Char → Bool} {l : Str} {b : Char} {t : Str}
    (h : l.dropWhile p = b :: t) : p b = false := by
  induction l with
  | nil => exact absurd h (by simp)
  | cons a l1 ih =>
    by_cases hp : p a = true
    · exact ih (by simpa only [List.dropWhile_cons, hp, if_true] using h)
    · rw [List.dropWhile_cons] at h
      simp only [hp] at h
      obtain ⟨h1, _⟩ := List.cons.inj h
      rw [← h1]
      exact Bool.eq_false_iff.mpr hp

theorem dropWhile_idem {p : Char → Bool} (l : Str) :
    (l.dropWhile p).dropWhile p = l.dropWhile p := by
  cases h : l.dropWhile p with
  | nil => rfl
  | cons b t =>
    have hb := dropWhile_head_false h
    simp [List.dropWhile_cons, hb]

theorem stripChars_append_space (x w : Str) (h : ∀ c ∈ w, isPySpace c = true) :
    stripChars (x ++ w) = stripChars x := by
  unfold stripChars
  by_cases hx : x.dropWhile isPySpace = []
  · rw [dropWhile_append_nil _ _ hx, dropWhile_all w h, hx]
  · rw [dropWhile_append_of_ne _ _ hx, List.reverse_append,
      dropWhile_append_nil _ _ (dropWhile_all _ fun c hc => h c (List.mem_reverse.mp hc))]

theorem reverse_dropWhile_reverse_prefix (p : Char → Bool) (l : Str) :
    (l.reverse.dropWhile p).reverse <+: l := by
  have h2 := List.reverse_prefix.mpr (List.dropWhile_suffix (l := l.reverse) p)
  simpa using h2

theorem stripChars_idem (x : Str) : stripChars (stripChars x) = stripChars x := by
  unfold stripChars
  have hpre : ((x.dropWhile isPySpace).reverse.dropWhile isPySpace).reverse
      <+: x.dropWhile isPySpace := reverse_dropWhile_reverse_prefix _ _
  have h1 : (((x.dropWhile isPySpace).reverse.dropWhile isPySpace).reverse).dropWhile isPySpace
      = ((x.dropWhile isPySpace).reverse.dropWhile isPySpace).reverse := by
    cases hEc : ((x.dropWhile isPySpace).reverse.dropWhile isPySpace).reverse with
    | nil => rfl
    | cons b t =>
      obtain ⟨u, hu⟩ := hpre
      rw [hEc] at hu
      have hd : x.dropWhile isPySpace = b :: (t ++ u) := by rw [← hu]; simp
      have hb : isPySpace b = false := dropWhile_head_false hd
      simp [List.dropWhile_cons, hb]
  rw [h1, List.reverse_reverse, dropWhile_idem]

theorem occursB_iff_substr {pat s : Str} : occursB pat s = true ↔ pat <:+: s := by
  induction s with
  | nil => simp [occursB, List.isEmpty_iff]
  | cons c rest ih =>
    rw [occursB, Bool.or_eq_true, List.infix_cons_iff, ih, List.isPrefixOf_iff_prefix]

theorem occursB_false_of_substr {pat s t : Str} (h : occursB pat s = false) (ht : t <:+: s) :
    occursB pat t = false := by
  by_contra hx
  have h1 := occursB_iff_substr.mp (Bool.not_eq_false _ |>.mp hx)
  exact absurd (occursB_iff_substr.mpr (h1.trans ht)) (by simp [h])

theorem stripChars_substr (s : Str) : stripChars s <:+: s := by
  have h2 : stripChars s <+: s.dropWhile isPySpace :=
    reverse_dropWhile_reverse_prefix _ _
  exact h2.isInfix.trans (List.dropWhile_suffix _).isInfix

theorem marker_not_prefixOf_nl (t : Str) : marker.isPrefixOf ('\n' :: t) = false := by
  by_contra hx
  have h1 := List.isPrefixOf_iff_prefix.mp (Bool.not_eq_false _ |>.mp hx)
  rw [marker_cons] at h1
  exact absurd (List.cons_prefix_cons.mp h1).1 (by decide)

theorem blank_prefix_head {c : Char} {t : Str} (h : blank.isPrefixOf (c :: t) = true) :
    c = '\n' := by
  have h1 := List.isPrefixOf_iff_prefix.mp h
  rw [blank_cons] at h1
  exact ((List.cons_prefix_cons.mp h1).1).symm

theorem reSubGo_true_shape (s : Str) :
    reSubGo true s = [] ∨ ∃ t, reSubGo true s = '\n' :: t := by
  induction s with
  | nil => exact Or.inl rfl
  | cons c rest ih =>
    by_cases h : blank.isPrefixOf (c :: rest) = true
    · right
      have hc := blank_prefix_head h
      subst hc
      exact ⟨reSubGo false rest, by simp [reSubGo, h]⟩
    · have h' : blank.isPrefixOf (c :: rest) = false := Bool.not_eq_true _ |>.mp h
      simpa [reSubGo, h'] using ih

theorem isPrefixOf_reSubGo_false (s : Str) {p : Str} (hne : p ≠ []) (hnl : '\n' ∉ p)
    (h : p.isPrefixOf (reSubGo false s) = true) : p.isPrefixOf s = true := by
  induction s generalizing p with
  | nil =>
    rw [show reSubGo false [] = [] from rfl] at h
    have := List.isPrefixOf_iff_prefix.mp h
    exact absurd (List.prefix_nil.mp this) hne
  | cons c rest ih =>
    by_cases hm : marker.isPrefixOf (c :: rest) = true
    · rw [show reSubGo false (c :: rest) = reSubGo true rest by simp [reSubGo, hm]] at h
      rcases reSubGo_true_shape rest with h0 | ⟨t, ht⟩
      · rw [h0] at h
        exact absurd (List.prefix_nil.mp (List.isPrefixOf_iff_prefix.mp h)) hne
      · rw [ht] at h
        rcases List.prefix_cons_iff.mp (List.isPrefixOf_iff_prefix.mp h) with h1 | ⟨t', ht', _⟩
        · exact absurd h1 hne
        · rw [ht'] at hnl
          exact absurd (List.mem_cons_self _ _) hnl
    · have hm' : marker.isPrefixOf (c :: rest) = false := Bool.not_eq_true _ |>.mp hm
      rw [show reSubGo false (c :: rest) = c :: reSubGo false rest by simp [reSubGo, hm']] at h
      rcases List.prefix_cons_iff.mp (List.isPrefixOf_iff_prefix.mp h) with h1 | ⟨t', ht', htp⟩
      · exact absurd h1 hne
      · subst ht'
        by_cases ht'nil : t' = []
        · subst ht'nil
          exact List.isPrefixOf_iff_prefix.mpr (List.cons_prefix_cons.mpr ⟨rfl, List.nil_prefix⟩)
        · have hnl' : '\n' ∉ t' := fun hmem => hnl (List.mem_cons_of_mem _ hmem)
          have h2 := ih ht'nil hnl' (List.isPrefixOf_iff_prefix.mpr htp)
          exact List.isPrefixOf_iff_prefix.mpr
            (List.cons_prefix_cons.mpr ⟨rfl, List.isPrefixOf_iff_prefix.mp h2⟩)

theorem occursB_marker_reSubGo (s : Str) : ∀ m, occursB marker (reSubGo m s) = false := by
  induction s with
  | nil => intro m; cases m <;> rfl
  | cons c rest ih =>
    intro m
    cases m with
    | true =>
      by_cases h : blank.isPrefixOf (c :: rest) = true
      · rw [show reSubGo true (c :: rest) = c :: reSubGo false rest by simp [reSubGo, h]]
        rw [occursB, blank_prefix_head h, marker_not_prefixOf_nl, ih false]
        rfl
      · have h' : blank.isPrefixOf (c :: rest) = false := Bool.not_eq_true _ |>.mp h
        rw [show reSubGo true (c :: rest) = reSubGo true rest by simp [reSubGo, h']]
        exact ih true
    | false =>
      by_cases h : marker.isPrefixOf (c :: rest) = true
      · rw [show reSubGo false (c :: rest) = reSubGo true rest by simp [reSubGo, h]]
        exact ih true
      · have h' : marker.isPrefixOf (c :: rest) = false := Bool.not_eq_true _ |>.mp h
        rw [show reSubGo false (c :: rest) = c :: reSubGo false rest by simp [reSubGo, h']]
        rw [occursB]
        have h1 : marker.isPrefixOf (c :: reSubGo false rest) = false := by
          by_contra hx
          have hx' : marker.isPrefixOf (reSubGo false (c :: rest)) = true := by
            rw [show reSubGo false (c :: rest) = c :: reSubGo false rest by simp [reSubGo, h']]
            exact Bool.not_eq_false _ |>.mp hx
          have := isPrefixOf_reSubGo_false (c :: rest) marker_ne_nil nl_not_mem_marker hx'
          exact absurd this (by simp [h'])
        rw [h1, ih false]
        rfl

theorem reSubGo_true_eq_nil (s : Str) (h : occursB blank s = false) : reSubGo true s = [] := by
  induction s with
  | nil => rfl
  | cons c rest ih =>
    rw [occursB, Bool.or_eq_false_iff] at h
    simp only [reSubGo, h.1, Bool.false_eq_true, if_false]
    exact ih h.2

theorem reSubGo_true_append (u t : Str) (h : ∀ c ∈ u, c ≠ '\n') :
    reSubGo true (u ++ t) = reSubGo true t := by
  induction u with
  | nil => rfl
  | cons a u1 ih =>
    have h1 : blank.isPrefixOf (a :: (u1 ++ t)) = false := by
      by_contra hx
      exact h a (List.mem_cons_self a u1)
        (blank_prefix_head (Bool.not_eq_false _ |>.mp hx))
    rw [List.cons_append,
      show reSubGo true (a :: (u1 ++ t)) = reSubGo true (u1 ++ t) by simp [reSubGo, h1]]
    exact ih fun c hc => h c (List.mem_cons_of_mem a hc)

theorem reSubGo_false_append (R T' : Str) (h : occursB marker R = false) :
    reSubGo false (R ++ '\n' :: T') = R ++ reSubGo false ('\n' :: T') := by
  induction R with
  | nil => rfl
  | cons a R1 ih =>
    rw [occursB, Bool.or_eq_false_iff] at h
    have hnp : marker.isPrefixOf (a :: (R1 ++ '\n' :: T')) = false := by
      by_contra hx
      have hx' := List.isPrefixOf_iff_prefix.mp (Bool.not_eq_false _ |>.mp hx)
      rw [show a :: (R1 ++ '\n' :: T') = (a :: R1) ++ '\n' :: T' from rfl] at hx'
      by_cases hlen : marker.length ≤ (a :: R1).length
      · have hp : marker <+: (a :: R1) :=
          List.prefix_of_prefix_length_le hx' (List.prefix_append _ _) hlen
        exact absurd (List.isPrefixOf_iff_prefix.mpr hp) (by simp [h.1])
      · push_neg at hlen
        have hpre : (a :: R1) <+: marker :=
          List.prefix_of_prefix_length_le (List.prefix_append _ _) hx' (Nat.le_of_lt hlen)
        obtain ⟨v, hv⟩ := hpre
        obtain ⟨u, hu⟩ := hx'
        have hvne : v ≠ [] := by
          intro h0
          rw [h0, List.append_nil] at hv
          rw [← hv] at hlen
          exact absurd hlen (by simp)
        rw [← hv, List.append_assoc] at hu
        have hcut : v ++ u = '\n' :: T' := List.append_cancel_left hu
        cases v with
        | nil => exact hvne rfl
        | cons b v' =>
          rw [List.cons_append] at hcut
          obtain ⟨hb, _⟩ := List.cons.inj hcut
          have hmem : '\n' ∈ marker := by
            rw [← hv, hb]
            exact List.mem_append_right _ (List.mem_cons_self _ _)
          exact absurd hmem nl_not_mem_marker
    rw [List.cons_append,
      show reSubGo false (a :: (R1 ++ '\n' :: T')) = a :: reSubGo false (R1 ++ '\n' :: T') by
        simp [reSubGo, hnp],
      ih h.2, List.cons_append]

theorem markerTail_no_nl : ∀ c ∈ markerTail, c ≠ '\n' := by decide

theorem reSubGo_false_cons_pos {c : Char} {rest : Str}
    (h : marker.isPrefixOf (c :: rest) = true) :
    reSubGo false (c :: rest) = reSubGo true rest := by
  rw [show reSubGo false (c :: rest)
      = if marker.isPrefixOf (c :: rest) = true then reSubGo true rest
        else c :: reSubGo false rest from rfl, if_pos h]

theorem reSubGo_false_cons_neg {c : Char} {rest : Str}
    (h : marker.isPrefixOf (c :: rest) = false) :
    reSubGo false (c :: rest) = c :: reSubGo false rest := by
  rw [show reSubGo false (c :: rest)
      = if marker.isPrefixOf (c :: rest) = true then reSubGo true rest
        else c :: reSubGo false rest from rfl, if_neg]
  simp [h]

theorem remove_from_update (R : Str) (rules : List Str)
    (hR : occursB marker R = false)
    (hb : occursB blank (section_tail rules) = false) :
    reSubGo false (R ++ str "\n\n" ++ marker ++ section_tail rules) = R ++ str "\n\n" := by
  have h1 : R ++ str "\n\n" ++ marker ++ section_tail rules
      = R ++ '\n' :: ('\n' :: (marker ++ section_tail rules)) := by
    simp [str, List.append_assoc]
  rw [h1, reSubGo_false_append _ _ hR]
  have hm : marker.isPrefixOf ('8' :: (markerTail ++ section_tail rules)) = true := by
    have := List.isPrefixOf_iff_prefix.mpr
      (List.prefix_append marker (section_tail rules))
    exact this
  have h4 : reSubGo false (marker ++ section_tail rules)
      = reSubGo true (markerTail ++ section_tail rules) := by
    rw [show marker ++ section_tail rules
        = '8' :: (markerTail ++ section_tail rules) from rfl]
    exact reSubGo_false_cons_pos hm
  have h5 : reSubGo true (markerTail ++ section_tail rules) = [] := by
    rw [reSubGo_true_append _ _ markerTail_no_nl]
    exact reSubGo_true_eq_nil _ hb
  rw [reSubGo_false_cons_neg (marker_not_prefixOf_nl _),
    reSubGo_false_cons_neg (marker_not_prefixOf_nl _), h4, h5]
  rfl

theorem update_section_shape (R : Str) (rules0 rules : List Str)
    (hR : occursB marker R = false) (hRs : stripChars R = R)
    (hb0 : occursB blank (section_tail rules0) = false) :
    update_error_prevention_section (R ++ str "\n\n" ++ marker ++ section_tail rules0) rules
      = R ++ str "\n\n" ++ marker ++ section_tail rules := by
  unfold update_error_prevention_section remove_prevention_sections
  rw [remove_from_update R rules0 hR hb0,
    stripChars_append_space R (str "\n\n") (by decide), hRs]
  simp [section_tail, indentSep, List.append_assoc]

theorem update_eq_shape (doc : Str) (rules : List Str) :
    update_error_prevention_section doc rules
      = stripChars (remove_prevention_sections doc)
          ++ str "\n\n" ++ marker ++ section_tail rules := by
  unfold update_error_prevention_section
  simp [section_tail, indentSep, List.append_assoc]

theorem stripChars_remove_no_marker (doc : Str) :
    occursB marker (stripChars (remove_prevention_sections doc)) = false :=
  occursB_false_of_substr (occursB_marker_reSubGo doc false) (stripChars_substr _)

theorem update_idempotent (doc : Str) (rules : List Str)
    (hb : occursB blank (section_tail rules) = false) :
    update_error_prevention_section (update_error_prevention_section doc rules) rules
      = update_error_prevention_section doc rules := by
  rw [update_eq_shape doc rules,
    update_section_shape _ rules rules (stripChars_remove_no_marker doc)
      (stripChars_idem _) hb]

theorem classify_error_eq (msg : Str) :
    classify_error msg
      = if (occursB (str "index") (pyLower msg)
            && (occursB (str "exceeds") (pyLower msg) || occursB (str "bounds") (pyLower msg)))
          = true then str "array_bounds"
        else if (occursB (str "dimension") (pyLower msg)
            || occursB (str "size") (pyLower msg)) = true then str "dimension_mismatch"
        else if (occursB (str "type") (pyLower msg)
            || occursB (str "class") (pyLower msg)) = true then str "type_error"
        else if (occursB (str "undefined") (pyLower msg)
            || occursB (str "not found") (pyLower msg)) = true then str "undefined_variable"
        else if occursB (str "syntax") (pyLower msg) = true then str "syntax_error"
        else str "other" := rfl

/-- C2: `classify_error` is total with exactly the six categories; any message
whose lowercase form contains both `index` and `bounds` is classified
`array_bounds` (the first keyword group, which wins over all later groups);
any message matching none of the keyword groups is classified `other`. -/
theorem classify_error_total_and_keywords (msg : Str) :
    classify_error msg ∈ [str "array_bounds", str "dimension_mismatch", str "type_error",
        str "undefined_variable", str "syntax_error", str "other"]
  ∧ (occursB (str "index") (pyLower msg) = true →
      occursB (str "bounds") (pyLower msg) = true →
      classify_error msg = str "array_bounds")
  ∧ ((occursB (str "index") (pyLower msg)
        && (occursB (str "exceeds") (pyLower msg) || occursB (str "bounds") (pyLower msg)))
          = false →
      (occursB (str "dimension") (pyLower msg) || occursB (str "size") (pyLower msg)) = false →
      (occursB (str "type") (pyLower msg) || occursB (str "class") (pyLower msg)) = false →
      (occursB (str "undefined") (pyLower msg) || occursB (str "not found") (pyLower msg))
          = false →
      occursB (str "syntax") (pyLower msg) = false →
      classify_error msg = str "other") := by
  refine ⟨?_, ?_, ?_⟩
  · rw [classify_error_eq]
    split
    · simp
    · split
      · simp
      · split
        · simp
        · split
          · simp
          · split <;> simp
  · intro h1 h2
    rw [classify_error_eq, h1, h2]
    simp
  · intro h1 h2 h3 h4 h5
    rw [classify_error_eq, h1, h2, h3, h4, h5]
    simp

/-- C2 witness: a concrete message with `INDEX` and `BOUNDS` in capital
letters is classified `array_bounds`; a message matching no keyword group is
classified `other`. -/
theorem classify_error_total_and_keywords_witness :
    classify_error (str "INDEX out of BOUNDS") = str "array_bounds"
  ∧ classify_error (str "mystery failure") = str "other" :=
  ⟨(classify_error_total_and_keywords (str "INDEX out of BOUNDS")).2.1 (by decide) (by decide),
   (classify_error_total_and_keywords (str "mystery failure")).2.2 (by decide) (by decide)
     (by decide) (by decide) (by decide)⟩

/-- C6: the rule synthesizer is template-driven: each of the five named
categories yields one fixed canonical rule text independent of the raw
message; for category `other` it yields a rule embedding the raw failure text
exactly when the message contains `assert`, and nothing otherwise. -/
theorem generate_prevention_rule_template (msg : Str) :
    generate_prevention_rule (str "array_bounds") msg
      = some (str "Always validate array indices against array dimensions using size() or length() before indexing operations to prevent 'Index exceeds array bounds' errors.")
  ∧ generate_prevention_rule (str "dimension_mismatch") msg
      = some (str "Verify matrix dimensions match before operations using size() and assert() to prevent dimension mismatch errors.")
  ∧ generate_prevention_rule (str "type_error") msg
      = some (str "Validate variable types using isa() or class() before operations to ensure type compatibility.")
  ∧ generate_prevention_rule (str "undefined_variable") msg
      = some (str "Check for variable existence using exist() before using variables to prevent 'Undefined variable' errors.")
  ∧ generate_prevention_rule (str "syntax_error") msg
      = some (str "Validate MATLAB syntax using mlint() before execution to catch syntax errors early.")
  ∧ (occursB (str "assert") msg = true →
      generate_prevention_rule (str "other") msg
        = some (str "Add appropriate assert() statements to validate conditions that caused: "
            ++ msg))
  ∧ (occursB (str "assert") msg = false →
      generate_prevention_rule (str "other") msg = none) := by
  refine ⟨rfl, rfl, rfl, rfl, rfl, ?_, ?_⟩
  · intro h
    rw [show generate_prevention_rule (str "other") msg
        = if occursB (str "assert") msg = true
          then some (str "Add appropriate assert() statements to validate conditions that caused: "
              ++ msg)
          else none from rfl, if_pos h]
  · intro h
    rw [show generate_prevention_rule (str "other") msg
        = if occursB (str "assert") msg = true
          then some (str "Add appropriate assert() statements to validate conditions that caused: "
              ++ msg)
          else none from rfl, if_neg]
    simp [h]

/-- C6 witness: the assertion heuristic at concrete messages with and without
the keyword. -/
theorem generate_prevention_rule_template_witness :
    generate_prevention_rule (str "other") (str "assertion failed: x > 0")
      = some (str "Add appropriate assert() statements to validate conditions that caused: "
          ++ str "assertion failed: x > 0")
  ∧ generate_prevention_rule (str "other") (str "mystery failure") = none :=
  ⟨(generate_prevention_rule_template (str "assertion failed: x > 0")).2.2.2.2.2.1 (by decide),
   (generate_prevention_rule_template (str "mystery failure")).2.2.2.2.2.2 (by decide)⟩

/-- C5: calling `fix_code_with_llm` with an empty error list returns the
current CodeArtifact, leaves the whole agent state unchanged, and does not
invoke the generation collaborator, for every session state and every
behaviour of the collaborator. -/
theorem fix_code_with_llm_empty_noop (st : AgentState) (outcome : ApiOutcome) :
    fix_code_with_llm st [] outcome = (st.matlab_code, st, false) := rfl

/-- C4: at the sentinel validation result the agent logging branch treats the
result as clean exactly like an empty list, but the interactive CLI truthiness
test still sends the sentinel list into the issues-and-repair branch, and
`validate_with_mlint` hands the sentinel list to the CLI unchanged. -/
theorem sentinel_divergence_agent_vs_cli :
    agent_validation_clean [str "No issues found."] = true
  ∧ agent_validation_clean [] = true
  ∧ cli_enters_issues_branch [str "No issues found."] = true
  ∧ cli_enters_issues_branch [] = false
  ∧ validate_with_mlint ⟨str "c", []⟩ [str "No issues found."]
      = ([str "No issues found."], ⟨str "c", [str "No issues found."]⟩) :=
  ⟨by decide, by decide, by decide, by decide, rfl⟩

/-- C10: with the engine available, the script written to disk and executed is
the NFKD-normalized ASCII-filtered form of the code, every character of which
is ASCII; consequently any code containing a non-ASCII character is altered
before execution, and no path of `execute_code` reports the alteration. -/
theorem execute_code_ascii_cleaning (code : Str) (h : code ≠ []) :
    execute_code_script true code = some (clean_ascii code)
  ∧ (∀ c ∈ clean_ascii code, c.toNat < 128)
  ∧ ((∃ c ∈ code, 128 ≤ c.toNat) → clean_ascii code ≠ code) := by
  refine ⟨?_, ?_, ?_⟩
  · cases code with
    | nil => exact absurd rfl h
    | cons a t => rfl
  · intro c hc
    exact of_decide_eq_true (List.mem_filter.mp hc).2
  · rintro ⟨c, hc, hge⟩ heq
    have hmem : c ∈ clean_ascii code := by rw [heq]; exact hc
    have hlt : c.toNat < 128 := of_decide_eq_true (List.mem_filter.mp hmem).2
    omega

/-- C10 witness: a script containing a single non-ASCII character (U+00E9) is
altered by the cleaning step. -/
theorem execute_code_ascii_cleaning_witness :
    clean_ascii [Char.ofNat 233] ≠ [Char.ofNat 233] :=
  (execute_code_ascii_cleaning [Char.ofNat 233] (by decide)).2.2
    ⟨Char.ofNat 233, by decide, by decide⟩

/-- C9 counterexample: a failing generate call does overwrite the previously
stored CodeArtifact with the error-comment string, contradicting the claim
that no collaborator failure overwrites it. -/
theorem generate_failure_overwrites_code :
    (generate_matlab_code ⟨str "x = 1;", []⟩ (Except.error (str "boom"))).2.matlab_code
      = str "% Error generating code: boom"
  ∧ (generate_matlab_code ⟨str "x = 1;", []⟩ (Except.error (str "boom"))).2.matlab_code
      ≠ str "x = 1;" := by
  refine ⟨by decide, by decide⟩

/-- C9 (amended): collaborator exceptions are caught at the point of call: a
failing fix call returns the original code and leaves the stored CodeArtifact
unchanged, while a failing generate call returns an error-comment string
carrying the error text, which replaces the stored CodeArtifact. -/
theorem collaborator_failure_handling (st : AgentState) (errs : List Str) (e : Str)
    (h : errs ≠ []) :
    (fix_code_with_llm st errs (Except.error e)).1 = st.matlab_code
  ∧ (fix_code_with_llm st errs (Except.error e)).2.1.matlab_code = st.matlab_code
  ∧ (generate_matlab_code st (Except.error e)).1 = str "% Error generating code: " ++ e
  ∧ (generate_matlab_code st (Except.error e)).2.matlab_code
      = str "% Error generating code: " ++ e := by
  have he : errs.isEmpty = false := by
    cases errs with
    | nil => exact absurd rfl h
    | cons a t => rfl
  refine ⟨?_, ?_, rfl, rfl⟩
  · simp [fix_code_with_llm, he, llm_fix_code]
  · simp [fix_code_with_llm, he, llm_fix_code]

/-- C9 witness: a failing fix call at a concrete state preserves the stored
code. -/
theorem collaborator_failure_handling_witness :
    (fix_code_with_llm ⟨str "a", []⟩ [str "E"] (Except.error (str "boom"))).2.1.matlab_code
      = str "a" :=
  (collaborator_failure_handling ⟨str "a", []⟩ [str "E"] (str "boom") (by decide)).2.1

/-- C3: merging the same rule text twice produces exactly one occurrence of
the rule; applying the prevention-section update twice with the same rules
yields the same document as applying it once; and merging preserves the
no-duplicates invariant of the rule list written into the section. -/
theorem rule_merge_idempotent_nodup (cur rules : List Str) (r doc : Str)
    (hcount : List.count r cur = 0) (hnd : cur.Nodup)
    (hb : occursB blank (section_tail rules) = false) :
    List.count r (merge_rule (merge_rule cur r) r) = 1
  ∧ (merge_rule cur r).Nodup
  ∧ update_error_prevention_section (update_error_prevention_section doc rules) rules
      = update_error_prevention_section doc rules := by
  have hmem : r ∉ cur := List.count_eq_zero.mp hcount
  have hm1 : merge_rule cur r = cur ++ [r] := by rw [merge_rule, if_neg hmem]
  refine ⟨?_, ?_, update_idempotent doc rules hb⟩
  · have hin : r ∈ cur ++ [r] := List.mem_append_right _ (List.mem_cons_self _ _)
    rw [hm1, merge_rule, if_pos hin, List.count_append, hcount]
    simp
  · rw [hm1]
    refine List.Nodup.append hnd (List.nodup_singleton r) ?_
    intro a ha hb2
    rw [List.mem_singleton] at hb2
    exact hmem (hb2 ▸ ha)

/-- C3 witness: the merge and the double update at concrete rule lists and a
concrete document. -/
theorem rule_merge_idempotent_nodup_witness :
    List.count (str "b") (merge_rule (merge_rule [str "a"] (str "b")) (str "b")) = 1
  ∧ update_error_prevention_section
        (update_error_prevention_section (str "intro\n\ntail") [str "x"]) [str "x"]
      = update_error_prevention_section (str "intro\n\ntail") [str "x"] :=
  ⟨(rule_merge_idempotent_nodup [str "a"] [str "x"] (str "b") (str "intro\n\ntail")
      (by decide) (by decide) (by decide)).1,
   (rule_merge_idempotent_nodup [str "a"] [str "x"] (str "b") (str "intro\n\ntail")
      (by decide) (by decide) (by decide)).2.2⟩

/-- C8 counterexample: for a document whose ERROR PREVENTION section sits in
the middle, re-serializing with the same single rule does not reproduce the
document: the section is moved to the end and extra blank lines are left at
the removal site, so the section is not re-inserted at its original position
and the surrounding text is not byte-for-byte untouched. -/
theorem update_section_moves_section_counterexample :
    update_error_prevention_section (str "A\n\n8. ERROR PREVENTION:\n    r1\n\nB") [str "r1"]
      = str "A\n\n\n\nB\n\n8. ERROR PREVENTION:\n    r1\n"
  ∧ update_error_prevention_section (str "A\n\n8. ERROR PREVENTION:\n    r1\n\nB") [str "r1"]
      ≠ str "A\n\n8. ERROR PREVENTION:\n    r1\n\nB" := by
  refine ⟨by decide, by decide⟩

/-- C8 (amended): merging preserves the order of existing rules and appends a
genuinely new rule at the end; the rebuilt ERROR PREVENTION section is placed
at the end of the document, and for a document whose section is already the
final section and whose remainder is stripped of surrounding whitespace, the
remainder is preserved byte-for-byte. -/
theorem update_section_end_preserves_rest (R new_rule : Str) (rules0 : List Str)
    (hR : occursB marker R = false) (hRs : stripChars R = R)
    (hb0 : occursB blank (section_tail rules0) = false) :
    merge_rule rules0 new_rule
        = rules0 ++ (if new_rule ∈ rules0 then [] else [new_rule])
  ∧ update_error_prevention_section (R ++ str "\n\n" ++ marker ++ section_tail rules0)
        (merge_rule rules0 new_rule)
      = R ++ str "\n\n" ++ marker ++ section_tail (merge_rule rules0 new_rule) := by
  constructor
  · by_cases hm : new_rule ∈ rules0
    · simp [merge_rule, hm]
    · simp [merge_rule, hm]
  · exact update_section_shape R rules0 _ hR hRs hb0

/-- C8 witness: updating a section-at-the-end document with one new rule at
concrete inputs. -/
theorem update_section_end_preserves_rest_witness :
    update_error_prevention_section
        (str "intro" ++ str "\n\n" ++ marker ++ section_tail [str "r1"])
        (merge_rule [str "r1"] (str "r2"))
      = str "intro" ++ str "\n\n" ++ marker ++ section_tail (merge_rule [str "r1"] (str "r2")) :=
  (update_section_end_preserves_rest (str "intro") (str "r2") [str "r1"]
    (by decide) (by decide) (by decide)).2

/-- C1 counterexample: a learning attempt whose rule synthesis yields nothing
(category `other`, no assertion keyword) leaves the persisted Error History
Store untouched, so the store is not updated on every learning attempt
regardless of outcome. -/
theorem learn_from_error_not_always_persisted :
    (learn_from_error wState (str "t0") (str "mystery failure") (str "f") (str "o")).1 = false
  ∧ (learn_from_error wState (str "t0") (str "mystery failure") (str "f") (str "o")).2.historyFile
      = ⟨[], none⟩ := by
  refine ⟨by decide, by decide⟩

/-- C1 (amended): every call to `learn_from_error` appends exactly one record
(timestamp, raw message, classified category, code-before, code-after) to the
in-memory error history; the history is persisted to the history file exactly
on the calls that return `true`, and is left as it was on calls that return
`false`; the scenario-D message is classified `array_bounds`. -/
theorem learn_from_error_history_semantics (st : LearnerState) (now msg fc oc : Str) :
    (learn_from_error st now msg fc oc).2.memory.errors
        = st.memory.errors ++ [⟨now, msg, classify_error msg, oc, fc⟩]
  ∧ ((learn_from_error st now msg fc oc).1 = true →
      (learn_from_error st now msg fc oc).2.historyFile.errors
        = st.memory.errors ++ [⟨now, msg, classify_error msg, oc, fc⟩])
  ∧ ((learn_from_error st now msg fc oc).1 = false →
      (learn_from_error st now msg fc oc).2.historyFile = st.historyFile)
  ∧ classify_error (str "Index exceeds matrix dimensions") = str "array_bounds" := by
  refine ⟨?_, ?_, ?_, by decide⟩
  · cases hg : generate_prevention_rule (classify_error msg) msg with
    | none => simp [learn_from_error, hg]
    | some r0 =>
      cases hp : st.promptFile with
      | none => simp [learn_from_error, hg, hp]
      | some p0 =>
        by_cases hmem : r0 ∈ current_rules_of p0
        · simp [learn_from_error, hg, hp, hmem]
        · simp [learn_from_error, hg, hp, hmem]
  · intro ht
    cases hg : generate_prevention_rule (classify_error msg) msg with
    | none => rw [show (learn_from_error st now msg fc oc).1 = false by simp [learn_from_error, hg]] at ht; exact absurd ht (by simp)
    | some r0 =>
      cases hp : st.promptFile with
      | none => rw [show (learn_from_error st now msg fc oc).1 = false by simp [learn_from_error, hg, hp]] at ht; exact absurd ht (by simp)
      | some p0 =>
        by_cases hmem : r0 ∈ current_rules_of p0
        · rw [show (learn_from_error st now msg fc oc).1 = false by simp [learn_from_error, hg, hp, hmem]] at ht; exact absurd ht (by simp)
        · simp [learn_from_error, hg, hp, hmem]
  · intro hf
    cases hg : generate_prevention_rule (classify_error msg) msg with
    | none => simp [learn_from_error, hg]
    | some r0 =>
      cases hp : st.promptFile with
      | none => simp [learn_from_error, hg, hp]
      | some p0 =>
        by_cases hmem : r0 ∈ current_rules_of p0
        · simp [learn_from_error, hg, hp, hmem]
        · rw [show (learn_from_error st now msg fc oc).1 = true by simp [learn_from_error, hg, hp, hmem]] at hf; exact absurd hf (by simp)

/-- C1 witness: the scenario-D repair with a present prompt and a fresh rule
persists exactly one record, whose category is `array_bounds`, whose
code-before is the pre-repair code, and whose code-after is the fix result. -/
theorem learn_from_error_history_semantics_witness :
    (learn_from_error wState (str "t0") (str "Index exceeds matrix dimensions")
        (str "fixed") (str "orig")).1 = true
  ∧ (learn_from_error wState (str "t0") (str "Index exceeds matrix dimensions")
        (str "fixed") (str "orig")).2.historyFile.errors
      = wState.memory.errors ++ [⟨str "t0", str "Index exceeds matrix dimensions",
          classify_error (str "Index exceeds matrix dimensions"), str "orig", str "fixed"⟩]
  ∧ classify_error (str "Index exceeds matrix dimensions") = str "array_bounds" :=
  ⟨by decide,
   (learn_from_error_history_semantics wState (str "t0")
      (str "Index exceeds matrix dimensions") (str "fixed") (str "orig")).2.1 (by decide),
   (learn_from_error_history_semantics wState (str "t0")
      (str "Index exceeds matrix dimensions") (str "fixed") (str "orig")).2.2.2⟩

/-- C7: the prompt mutation inside `learn_from_error` is all-or-nothing: on
every call that returns `false` the prompt document is left exactly as it was;
the call returns `true` exactly when a rule was synthesized, the prompt
document exists, and the rule is not already present, in which case the
updated document with the rule appended is written. -/
theorem learn_from_error_all_or_nothing (st : LearnerState) (now msg fc oc : Str) :
    ((learn_from_error st now msg fc oc).1 = false →
        (learn_from_error st now msg fc oc).2.promptFile = st.promptFile)
  ∧ ((learn_from_error st now msg fc oc).1 = true ↔
        ∃ r p, generate_prevention_rule (classify_error msg) msg = some r
          ∧ st.promptFile = some p ∧ r ∉ current_rules_of p)
  ∧ (∀ r p, generate_prevention_rule (classify_error msg) msg = some r →
        st.promptFile = some p → r ∉ current_rules_of p →
        (learn_from_error st now msg fc oc).2.promptFile
          = some (update_error_prevention_section p (current_rules_of p ++ [r]))) := by
  cases hg : generate_prevention_rule (classify_error msg) msg with
  | none =>
    refine ⟨fun _ => by simp [learn_from_error, hg], by simp [learn_from_error, hg], ?_⟩
    intro r p hr
    exact absurd hr (by simp)
  | some r0 =>
    cases hp : st.promptFile with
    | none =>
      refine ⟨fun _ => by simp [learn_from_error, hg, hp], by simp [learn_from_error, hg, hp], ?_⟩
      intro r p hr hp2
      exact absurd hp2 (by simp)
    | some p0 =>
      by_cases hmem : r0 ∈ current_rules_of p0
      · refine ⟨fun _ => by simp [learn_from_error, hg, hp, hmem], ?_, ?_⟩
        · simp only [show (learn_from_error st now msg fc oc).1 = false by
            simp [learn_from_error, hg, hp, hmem]]
          constructor
          · intro hfalse; exact absurd hfalse (by simp)
          · rintro ⟨r, p, hr, hp2, hmem2⟩
            obtain rfl : r0 = r := Option.some.inj hr
            obtain rfl : p0 = p := Option.some.inj hp2
            exact absurd hmem hmem2
        · intro r p hr hp2 hmem2
          obtain rfl : r0 = r := Option.some.inj hr
          obtain rfl : p0 = p := Option.some.inj hp2
          exact absurd hmem hmem2
      · refine ⟨fun hf => ?_, ?_, ?_⟩
        · rw [show (learn_from_error st now msg fc oc).1 = true by
            simp [learn_from_error, hg, hp, hmem]] at hf
          exact absurd hf (by simp)
        · constructor
          · intro _; exact ⟨r0, p0, rfl, rfl, hmem⟩
          · intro _; simp [learn_from_error, hg, hp, hmem]
        · intro r p hr hp2 hmem2
          obtain rfl : r0 = r := Option.some.inj hr
          obtain rfl : p0 = p := Option.some.inj hp2
          simp [learn_from_error, hg, hp, hmem]

/-- C7 witness: with a missing prompt document the call fails and the prompt
state is left intact. -/
theorem learn_from_error_all_or_nothing_witness :
    (learn_from_error ⟨none, ⟨[], none⟩, ⟨[], none⟩⟩ (str "t0")
        (str "Index exceeds matrix dimensions") (str "f") (str "o")).2.promptFile = none :=
  (learn_from_error_all_or_nothing ⟨none, ⟨[], none⟩, ⟨[], none⟩⟩ (str "t0")
      (str "Index exceeds matrix dimensions") (str "f") (str "o")).1 (by decide)
